import Mathlib

/-!
Verification development for the `frontend-id-transportes` repository.

The development shallowly embeds the parts of the TypeScript sources that the
verified properties are about:

* `src/services/api.ts` — the `ApiService` class: JWT expiry checking
  (`isTokenValid`), session cleanup (`getAuthHeader`), the generic HTTP
  request wrapper (`request`), the `login` double-unwrap, the protected-file
  fetcher (`getSecureFile`) and the bespoke `uploadCompanyLogo` path.
* `src/pages/dashboard/DriverForm.tsx` — the `SupervisorDashboard` driver
  status polling callback (`loadDriverStatuses`) and the speed rendering.

JavaScript platform primitives used by that code (`atob`, `JSON.parse`,
`Number(...)`, `String(...)`, truthiness, the `??` operator) are modelled
explicitly below so that every definition is executable and every concrete
statement can be settled by kernel reduction.  Effectful code is embedded by
explicit state passing (`localStorage` becomes a record threaded through the
functions) or by reifying the emitted effects as a list.
-/

/-! ## A model of JSON values

JavaScript numbers are modelled as rationals (`Rat`): every number literal a
JSON body can carry is a finite decimal, hence a rational.  `NaN` is not a
JSON value; where a JS coercion can produce `NaN` the model uses `Option`.
-/

/-- JSON values (the results of a successful `JSON.parse`). -/
inductive Json where
  | null : Json
  | bool (b : Bool) : Json
  | num (q : Rat) : Json
  | str (s : String) : Json
  | arr (elems : List Json) : Json
  | obj (fields : List (String × Json)) : Json

/-- Looks a key up in the field list of a JSON object (JS property access). -/
def lookupField : List (String × Json) → String → Option Json
  | [], _ => none
  | (k, v) :: rest, key => if k = key then some v else lookupField rest key

/-- JS property access `value[key]`: `none` models `undefined` (also for
non-object values, whose string-keyed properties are irrelevant here). -/
def jget (v : Json) (key : String) : Option Json :=
  match v with
  | Json.obj fields => lookupField fields key
  | _ => none

/-- True when the JSON object field list carries the given key. -/
def hasField : List (String × Json) → String → Bool
  | [], _ => false
  | (k, _) :: rest, key => k = key || hasField rest key

/-- JS truthiness of a JSON value (objects and arrays are always truthy). -/
def jsTruthy : Json → Bool
  | Json.null => false
  | Json.bool b => b
  | Json.num q => decide (q ≠ 0)
  | Json.str s => decide (s ≠ "")
  | Json.arr _ => true
  | Json.obj _ => true

/-- JS truthiness where `none` models `undefined`. -/
def jsTruthyOpt : Option Json → Bool
  | none => false
  | some v => jsTruthy v

/-! ## List-of-characters utilities mirroring JS string primitives -/

/-- JS `String.prototype.split` with a single-character separator: splits on
every occurrence and keeps empty pieces, so splitting `a..b` on the dot
yields the three pieces `a`, the empty piece, and `b`. -/
def splitOnChar (sep : Char) : List Char → List (List Char)
  | [] => [[]]
  | c :: rest =>
    if c = sep then [] :: splitOnChar sep rest
    else
      match splitOnChar sep rest with
      | [] => [[c]]
      | piece :: pieces => (c :: piece) :: pieces

/-- Whether `pat` is a prefix of `cs` (character by character). -/
def listStartsWith : List Char → List Char → Bool
  | _, [] => true
  | [], _ :: _ => false
  | c :: cs, p :: ps => c = p && listStartsWith cs ps

/-- Whether `pat` occurs contiguously inside `cs` (JS `String.prototype.includes`). -/
def listContainsSub : List Char → List Char → Bool
  | [], pat => pat.isEmpty
  | c :: cs, pat => listStartsWith (c :: cs) pat || listContainsSub cs pat

/-- JS `String.prototype.includes` on strings. -/
def includesSub (s pat : String) : Bool :=
  listContainsSub s.data pat.data

/-! ## The platform base64 decoder (`atob`)

Modelled JS platform primitive: WHATWG forgiving-base64 decoding.  ASCII
whitespace is stripped, up to two trailing `=` are dropped when the length is
a multiple of four, a remainder of one rejects, every remaining character must
be in the base64 alphabet, and the 6-bit groups are packed into bytes.  `none`
models the `InvalidCharacterError` that `atob` throws. -/

/-- ASCII whitespace for forgiving-base64. -/
def isB64Ws (c : Char) : Bool :=
  c = ' ' || c = '\t' || c = '\n' || c = '\x0c' || c = '\r'

/-- Value of one base64 alphabet character, `none` for anything else. -/
def b64Val (c : Char) : Option Nat :=
  if 'A' ≤ c ∧ c ≤ 'Z' then some (c.toNat - 65)
  else if 'a' ≤ c ∧ c ≤ 'z' then some (c.toNat - 71)
  else if '0' ≤ c ∧ c ≤ '9' then some (c.toNat + 4)
  else if c = '+' then some 62
  else if c = '/' then some 63
  else none

/-- Packs 6-bit values into bytes, four values to three bytes, with the
forgiving-base64 handling of a final group of two or three values. -/
def b64Bytes : List Nat → List Nat
  | a :: b :: c :: d :: rest =>
    (a * 4 + b / 16) :: (b % 16 * 16 + c / 4) :: (c % 4 * 64 + d) :: b64Bytes rest
  | [a, b] => [a * 4 + b / 16]
  | [a, b, c] => [a * 4 + b / 16, b % 16 * 16 + c / 4]
  | [_] => []
  | [] => []

/-- Drops up to two trailing `=` from a reversed character list. -/
def b64DropPad : List Char → List Char
  | '=' :: '=' :: rest => rest
  | '=' :: rest => rest
  | rest => rest

/-- Modelled JS platform primitive `atob` on character lists. -/
def atobL (cs : List Char) : Option (List Char) :=
  let kept := cs.filter (fun c => !isB64Ws c)
  let kept := if kept.length % 4 = 0 then (b64DropPad kept.reverse).reverse else kept
  if kept.length % 4 = 1 then none
  else if kept.any (fun c => (b64Val c).isNone) then none
  else some ((b64Bytes (kept.map (fun c => (b64Val c).getD 0))).map Char.ofNat)

/-! ## JS numeric and string coercions -/

/-- JS whitespace trimmed by `Number(string)` (the common ASCII subset). -/
def isJsWs (c : Char) : Bool :=
  c = ' ' || c = '\t' || c = '\n' || c = '\r' || c = '\x0c' || c = '\x0b'

/-- Trims JS whitespace from both ends of a character list. -/
def trimWs (cs : List Char) : List Char :=
  ((cs.dropWhile isJsWs).reverse.dropWhile isJsWs).reverse

/-- Numeric value of a list of decimal digit characters. -/
def digitsToNat (ds : List Char) : Nat :=
  ds.foldl (fun a c => a * 10 + (c.toNat - 48)) 0

/-- Parses an unsigned decimal (integer part, optional fraction) off the
front of a character list, as the triple of integer-part value, fraction-part
value and fraction length; fails when no digit is present at all. -/
def parseDecimalParts (cs : List Char) : Option ((Nat × Nat × Nat) × List Char) :=
  let ip := cs.takeWhile Char.isDigit
  let r1 := cs.dropWhile Char.isDigit
  match r1 with
  | '.' :: r2 =>
    let fp := r2.takeWhile Char.isDigit
    let r3 := r2.dropWhile Char.isDigit
    if ip.isEmpty && fp.isEmpty then none
    else some ((digitsToNat ip, digitsToNat fp, fp.length), r3)
  | _ => if ip.isEmpty then none else some ((digitsToNat ip, 0, 0), r1)

/-- Parses the digits of a decimal exponent after the `e`/`E` marker. -/
def parseExponentDigits (cs : List Char) : Option (Int × List Char) :=
  let signed : Int × List Char := match cs with
    | '+' :: rest => (1, rest)
    | '-' :: rest => (-1, rest)
    | rest => (1, rest)
  let ds := signed.2.takeWhile Char.isDigit
  let rest := signed.2.dropWhile Char.isDigit
  if ds.isEmpty then none else some (signed.1 * (digitsToNat ds : Int), rest)

/-- Parses an optional decimal exponent suffix (`e`/`E`, optional sign). -/
def parseExponent (cs : List Char) : Option (Int × List Char) :=
  match cs with
  | 'e' :: rest => parseExponentDigits rest
  | 'E' :: rest => parseExponentDigits rest
  | rest => some (0, rest)

/-- Builds the exact rational value of a parsed decimal literal: optional
sign, integer part, fraction part of the given length, base-ten exponent.
Only `mkRat` and integer arithmetic are used so that the value always
reduces inside the kernel. -/
def ratOfParts (neg : Bool) (ip fp fracLen : Nat) (e : Int) : Rat :=
  let mantissa : Int := Int.ofNat (ip * 10 ^ fracLen + fp)
  let mantissa : Int := if neg then -mantissa else mantissa
  if 0 ≤ e then mkRat (mantissa * Int.ofNat (10 ^ e.toNat)) (10 ^ fracLen)
  else mkRat mantissa (10 ^ fracLen * 10 ^ (-e).toNat)

/-- Modelled JS platform coercion `Number(string)`: whitespace is trimmed, the
empty string is `0`, otherwise an optionally signed decimal with optional
exponent.  `none` models `NaN`.  (The rarely used hex/binary/`Infinity`
literal forms are not modelled and map to `none`.) -/
def strToNumber (s : String) : Option Rat :=
  match trimWs s.data with
  | [] => some 0
  | cs =>
    let signed : Bool × List Char := match cs with
      | '+' :: rest => (false, rest)
      | '-' :: rest => (true, rest)
      | rest => (false, rest)
    match parseDecimalParts signed.2 with
    | none => none
    | some (parts, rest) =>
      match parseExponent rest with
      | some (e, []) => some (ratOfParts signed.1 parts.1 parts.2.1 parts.2.2 e)
      | _ => none

/-- Modelled JS platform coercion `Number(value)` on JSON values; `none`
models `NaN`.  (A one-element array coerces through its string form in JS;
that corner is modelled as `NaN`.) -/
def jsToNumber : Json → Option Rat
  | Json.null => some 0
  | Json.bool b => some (if b then 1 else 0)
  | Json.num q => some q
  | Json.str s => strToNumber s
  | Json.arr [] => some 0
  | Json.arr (_ :: _) => none
  | Json.obj _ => none

/-- JS comparison `v > n` for a possibly-`undefined` property `v` against a
number `n`: the property is coerced to a number and `NaN`/`undefined`
comparisons are false. -/
def jsGtNum (v : Option Json) (n : Int) : Bool :=
  match v with
  | none => false
  | some w =>
    match jsToNumber w with
    | none => false
    | some q => decide ((n : Rat) < q)

/-- Decimal string of a rational, for integers (the only case the claims
exercise); a non-integral rational is rendered from its reduced fraction,
which approximates the JS shortest-round-trip form. -/
def ratToJsString (q : Rat) : String :=
  if q.den = 1 then toString q.num
  else toString q.num ++ "/" ++ toString q.den

/-- Modelled JS platform coercion `String(value)` on JSON values.  (Array
coercion joins elements; only the empty-array corner is modelled exactly,
other arrays are approximated by the empty string.) -/
def jsString : Json → String
  | Json.null => "null"
  | Json.bool b => if b then "true" else "false"
  | Json.num q => ratToJsString q
  | Json.str s => s
  | Json.arr _ => ""
  | Json.obj _ => "[object Object]"

/-! ## The platform JSON parser (`JSON.parse`)

Modelled JS platform primitive: a recursive-descent JSON parser.  `none`
models the `SyntaxError` that `JSON.parse` throws.  The model is faithful for
all ordinary bodies; two leniencies are documented inline (leading zeros in
numbers are accepted, and `\uXXXX` escapes decode code units without surrogate
pairing). -/

/-- Value of one hexadecimal digit, `none` for anything else. -/
def hexVal (c : Char) : Option Nat :=
  if '0' ≤ c ∧ c ≤ '9' then some (c.toNat - 48)
  else if 'a' ≤ c ∧ c ≤ 'f' then some (c.toNat - 87)
  else if 'A' ≤ c ∧ c ≤ 'F' then some (c.toNat - 55)
  else none

/-- Skips JSON whitespace. -/
def skipJsonWs (cs : List Char) : List Char :=
  cs.dropWhile (fun c => c = ' ' || c = '\t' || c = '\n' || c = '\r')

/-- Parses a JSON string body after the opening quote, returning the decoded
characters and the remainder after the closing quote. -/
def pStringBody : List Char → Option (List Char × List Char)
  | [] => none
  | '"' :: rest => some ([], rest)
  | '\\' :: '"' :: rest => (pStringBody rest).map (fun p => ('"' :: p.1, p.2))
  | '\\' :: '\\' :: rest => (pStringBody rest).map (fun p => ('\\' :: p.1, p.2))
  | '\\' :: '/' :: rest => (pStringBody rest).map (fun p => ('/' :: p.1, p.2))
  | '\\' :: 'b' :: rest => (pStringBody rest).map (fun p => ('\x08' :: p.1, p.2))
  | '\\' :: 'f' :: rest => (pStringBody rest).map (fun p => ('\x0c' :: p.1, p.2))
  | '\\' :: 'n' :: rest => (pStringBody rest).map (fun p => ('\n' :: p.1, p.2))
  | '\\' :: 'r' :: rest => (pStringBody rest).map (fun p => ('\r' :: p.1, p.2))
  | '\\' :: 't' :: rest => (pStringBody rest).map (fun p => ('\t' :: p.1, p.2))
  | '\\' :: 'u' :: h1 :: h2 :: h3 :: h4 :: rest =>
    match hexVal h1, hexVal h2, hexVal h3, hexVal h4 with
    | some a, some b, some c, some d =>
      (pStringBody rest).map
        (fun p => (Char.ofNat (a * 4096 + b * 256 + c * 16 + d) :: p.1, p.2))
    | _, _, _, _ => none
  | '\\' :: _ => none
  | c :: rest =>
    if c.toNat < 32 then none
    else (pStringBody rest).map (fun p => (c :: p.1, p.2))

/-- Parses a JSON number off the front of a character list.  (Leniency: a
leading zero such as in the text `01` is accepted here although JSON rejects
it; no claim depends on that corner.) -/
def pNumber (cs : List Char) : Option (Json × List Char) :=
  let signed : Bool × List Char := match cs with
    | '-' :: rest => (true, rest)
    | rest => (false, rest)
  match parseDecimalParts signed.2 with
  | none => none
  | some (parts, r1) =>
    match parseExponent r1 with
    | some (e, r2) => some (Json.num (ratOfParts signed.1 parts.1 parts.2.1 parts.2.2 e), r2)
    | none => none

/-- Intermediate result of the fueled JSON parsing step. -/
inductive PRes where
  | val (j : Json) : PRes
  | list (js : List Json) : PRes
  | fields (fs : List (String × Json)) : PRes

/-- Parsing mode of the fueled JSON parsing step: a single value, the element
list of an array after `[`, or the member list of an object after `{`. -/
inductive PMode where
  | value : PMode
  | elems : PMode
  | members : PMode

/-- One fueled JSON parsing step.  The fuel only bounds recursion depth; it is
chosen large enough at the entry point that it never runs out on any input. -/
def pStep : Nat → PMode → List Char → Option (PRes × List Char)
  | 0, _, _ => none
  | Nat.succ fuel, PMode.value, cs =>
    match skipJsonWs cs with
    | 'n' :: 'u' :: 'l' :: 'l' :: rest => some (PRes.val Json.null, rest)
    | 't' :: 'r' :: 'u' :: 'e' :: rest => some (PRes.val (Json.bool true), rest)
    | 'f' :: 'a' :: 'l' :: 's' :: 'e' :: rest => some (PRes.val (Json.bool false), rest)
    | '"' :: rest =>
      (pStringBody rest).map (fun p => (PRes.val (Json.str (String.mk p.1)), p.2))
    | '[' :: rest =>
      (match skipJsonWs rest with
       | ']' :: rest2 => some (PRes.val (Json.arr []), rest2)
       | _ =>
         match pStep fuel PMode.elems rest with
         | some (PRes.list js, r) => some (PRes.val (Json.arr js), r)
         | _ => none)
    | '{' :: rest =>
      (match skipJsonWs rest with
       | '}' :: rest2 => some (PRes.val (Json.obj []), rest2)
       | _ =>
         match pStep fuel PMode.members rest with
         | some (PRes.fields fs, r) => some (PRes.val (Json.obj fs), r)
         | _ => none)
    | other => (pNumber other).map (fun p => (PRes.val p.1, p.2))
  | Nat.succ fuel, PMode.elems, cs =>
    match pStep fuel PMode.value cs with
    | some (PRes.val j, r) =>
      (match skipJsonWs r with
       | ',' :: r2 =>
         match pStep fuel PMode.elems r2 with
         | some (PRes.list js, r3) => some (PRes.list (j :: js), r3)
         | _ => none
       | ']' :: r2 => some (PRes.list [j], r2)
       | _ => none)
    | _ => none
  | Nat.succ fuel, PMode.members, cs =>
    match skipJsonWs cs with
    | '"' :: rest =>
      (match pStringBody rest with
       | some (kcs, r1) =>
         (match skipJsonWs r1 with
          | ':' :: r2 =>
            (match pStep fuel PMode.value r2 with
             | some (PRes.val v, r3) =>
               (match skipJsonWs r3 with
                | ',' :: r4 =>
                  (match pStep fuel PMode.members r4 with
                   | some (PRes.fields fs, r5) =>
                     some (PRes.fields ((String.mk kcs, v) :: fs), r5)
                   | _ => none)
                | '}' :: r4 => some (PRes.fields [(String.mk kcs, v)], r4)
                | _ => none)
             | _ => none)
          | _ => none)
       | none => none)
    | _ => none

/-- Modelled JS platform primitive `JSON.parse`; `none` models a thrown
`SyntaxError`. -/
def jsonParse (s : String) : Option Json :=
  match pStep (s.data.length * 2 + 4) PMode.value s.data with
  | some (PRes.val j, rest) => if (skipJsonWs rest).isEmpty then some j else none
  | _ => none

/-! ## Embedding of `src/services/api.ts` — session storage and token check -/

/-- The five `localStorage` session keys the `ApiService` reads and clears:
`id_transporte_token`, `id_transporte_user`, `id_transporte_company`,
`temp_token`, `temp_user`.  `none` models an absent key. -/
structure LocalStorage where
  token : Option String
  user : Option String
  company : Option String
  tempToken : Option String
  tempUser : Option String
deriving DecidableEq

/-- The storage state after the eager cleanup removed all five session keys. -/
def clearedStorage : LocalStorage :=
  ⟨none, none, none, none, none⟩

/-- The token both `isTokenValid` and `getAuthHeader` operate on: the final
slot `id_transporte_token`, falling back to the temporary slot `temp_token`. -/
def activeToken (s : LocalStorage) : Option String :=
  match s.token with
  | some t => some t
  | none => s.tempToken

/-- The `replace` of `-` by `+` and `_` by `/` that `isTokenValid` applies to
the middle token segment before calling `atob`. -/
def base64urlNormalize (cs : List Char) : List Char :=
  cs.map (fun c => if c = '-' then '+' else if c = '_' then '/' else c)

/-- Validity of one token string per `ApiService.isTokenValid` (api.ts:13-24):
split on dots, require exactly three segments, base64-decode the normalized
middle segment, parse it as JSON and compare its `exp` field against the
current epoch seconds; every failure is caught and yields `false`. -/
def tokenValid (t : String) (nowSec : Int) : Bool :=
  let parts := splitOnChar '.' t.data
  if parts.length ≠ 3 then false
  else
    match atobL (base64urlNormalize (parts.getD 1 [])) with
    | none => false
    | some decoded =>
      match jsonParse (String.mk decoded) with
      | none => false
      | some payload => jsGtNum (jget payload "exp") nowSec

/-- `ApiService.isTokenValid` (api.ts:5-25): validity of the active token;
`nowSec` is the floor of the current epoch milliseconds divided by 1000. -/
def isTokenValid (s : LocalStorage) (nowSec : Int) : Bool :=
  match activeToken s with
  | none => false
  | some t => tokenValid t nowSec

/-- `ApiService.getAuthHeader` (api.ts:29-46): returns the updated storage and
the header record.  A present-but-invalid active token removes all five
session keys and yields no header; a valid one yields the bearer header. -/
def getAuthHeader (s : LocalStorage) (nowSec : Int) : LocalStorage × List (String × String) :=
  match activeToken s with
  | none => (s, [])
  | some t =>
    if isTokenValid s nowSec then (s, [("Authorization", "Bearer " ++ t)])
    else (clearedStorage, [])

/-! ## Embedding of `ApiService.request` (api.ts:48-100) -/

/-- Builds a JS object by assigning the given entries onto `m` in order: an
existing key is updated in place, a new key is appended (object spread). -/
def objExtend (m : List (String × String)) (entries : List (String × String)) :
    List (String × String) :=
  entries.foldl
    (fun acc e =>
      if acc.any (fun p => p.1 = e.1)
      then acc.map (fun p => if p.1 = e.1 then e else p)
      else acc ++ [e])
    m

/-- Removes a key from a JS-object field list (the `delete` operator). -/
def delKey (m : List (String × String)) (k : String) : List (String × String) :=
  m.filter (fun p => p.1 ≠ k)

/-- The caller-controlled parts of the `RequestInit` options that determine
the outgoing headers: the optional `headers` property and whether `body` is a
`FormData` instance. -/
structure RequestOptions where
  headers : Option (List (String × String))
  bodyIsFormData : Bool

/-- The `headers` local computed at api.ts:56-64: content-type default, then
the auth header, then the caller headers (later wins), with the content-type
entry deleted entirely when the body is `FormData`. -/
def requestComputedHeaders (auth : List (String × String)) (opts : RequestOptions) :
    List (String × String) :=
  let merged := objExtend (objExtend [("Content-Type", "application/json")] auth)
    (opts.headers.getD [])
  if opts.bodyIsFormData then delKey merged "Content-Type" else merged

/-- The headers actually passed to `fetch` at api.ts:66-69.  The init object
is written `{ headers, ...options }`, so when the caller options carry their
own `headers` property the spread re-assigns it and the computed merge is
discarded wholesale. -/
def requestWireHeaders (auth : List (String × String)) (opts : RequestOptions) :
    List (String × String) :=
  match opts.headers with
  | some hs => hs
  | none => requestComputedHeaders auth opts

/-- The abstracted behaviour of the platform `fetch` plus `response.json()`
as seen by `request`: the await chain threw an `Error` with the given
message (network failure or JSON parse failure), or a non-2xx response
arrived whose error body parsed to `some` JSON (`none` when that parse
failed), or a 2xx response arrived with a parsed JSON body. -/
inductive FetchOutcome where
  | thrown (msg : String) : FetchOutcome
  | httpError (status : Nat) (body : Option Json) : FetchOutcome
  | ok (body : Json) : FetchOutcome

/-- The fixed server-configuration message of api.ts:74 and api.ts:88. -/
def serverConfigMessage : String :=
  "Erro de configuração do servidor. Entre em contato com o administrador."

/-- The fixed connectivity message of api.ts:90. -/
def connectivityMessage : String :=
  "Não foi possível conectar ao servidor. Verifique sua conexão."

/-- The `error` field of a parsed non-2xx body when it is a string
(`errorData?.error`); a missing field, a non-object body or a failed body
parse give `none`.  (A non-string truthy `error` field would make the JS
`includes` call itself throw a platform `TypeError`; that exotic corner is
modelled as an absent field.) -/
def errorFieldString (body : Option Json) : Option String :=
  match body with
  | some (Json.obj fs) =>
    match lookupField fs "error" with
    | some (Json.str e) => some e
    | _ => none
  | _ => none

/-- Message of the `Error` thrown inside the `try` block for a non-2xx
response (api.ts:71-77): the fixed configuration message when the structured
error mentions `secretOrPrivateKey`, else the structured error when truthy,
else `HTTP` plus the status. -/
def httpThrownMessage (status : Nat) (body : Option Json) : String :=
  match errorFieldString body with
  | some e =>
    if includesSub e "secretOrPrivateKey" then serverConfigMessage
    else if e = "" then "HTTP " ++ Nat.repr status
    else e
  | none => "HTTP " ++ Nat.repr status

/-- The `catch` block of `request` (api.ts:84-94): classify the caught
message by substring. -/
def classifyCaughtMessage (msg : String) : String :=
  if includesSub msg "secretOrPrivateKey" then serverConfigMessage
  else if includesSub msg "Failed to fetch" then connectivityMessage
  else msg

/-- The failed envelope `{ success: false, error: msg }` of api.ts:95-98. -/
def failEnvelope (msg : String) : Json :=
  Json.obj [("success", Json.bool false), ("error", Json.str msg)]

/-- The pass-through test of api.ts:80: the parsed body is a truthy value of
object type that carries a `success` key (`in` on an array finds no such
key, and `null` fails the truthiness test). -/
def passThrough (body : Json) : Bool :=
  match body with
  | Json.obj fs => hasField fs "success"
  | _ => false

/-- `ApiService.request` (api.ts:48-100) as a function of the fetch outcome:
the envelope the returned promise resolves to.  The function is total — the
method never rejects: every thrown error is caught and classified into a
failed envelope. -/
def request (outcome : FetchOutcome) : Json :=
  match outcome with
  | FetchOutcome.thrown msg => failEnvelope (classifyCaughtMessage msg)
  | FetchOutcome.httpError status body =>
    failEnvelope (classifyCaughtMessage (httpThrownMessage status body))
  | FetchOutcome.ok body =>
    if passThrough body then body
    else Json.obj [("success", Json.bool true), ("data", body)]

/-! ## Embedding of `ApiService.login` (api.ts:153-180) -/

/-- The doubly nested payload access `response.data.data`. -/
def responseDataData (resp : Json) : Option Json :=
  match jget resp "data" with
  | some d => jget d "data"
  | none => none

/-- The unwrap guard of api.ts:175:
`response.success && response.data && response.data.data`. -/
def loginUnwrapCondition (resp : Json) : Bool :=
  jsTruthyOpt (jget resp "success") && jsTruthyOpt (jget resp "data") &&
    jsTruthyOpt (responseDataData resp)

/-- Re-assigns a key of a JS-object field list in place (object spread
followed by an explicit property, `{ ...resp, data: inner }`). -/
def setField : List (String × Json) → String → Json → List (String × Json)
  | [], k, v => [(k, v)]
  | (k1, v1) :: rest, k, v =>
    if k1 = k then (k, v) :: rest else (k1, v1) :: setField rest k v

/-- The post-processing `login` applies to the envelope (api.ts:175-179):
one level of `data` nesting is removed when the guard holds, otherwise the
envelope is returned unchanged. -/
def loginTransform (resp : Json) : Json :=
  if loginUnwrapCondition resp then
    match resp, responseDataData resp with
    | Json.obj fs, some inner => Json.obj (setField fs "data" inner)
    | _, _ => resp
  else resp

/-- `ApiService.login` as a function of the fetch outcome of its inner
`request` call. -/
def login (outcome : FetchOutcome) : Json :=
  loginTransform (request outcome)

/-! ## Embedding of `ApiService.getSecureFile` (api.ts:125-150) -/

/-- The abstracted behaviour of the platform `fetch` chain as seen by
`getSecureFile`: a thrown transport error, a non-2xx response (with its
`statusText` and optionally parsed error body), or a 2xx response whose blob
was turned into an object URL. -/
inductive SecureFetchOutcome where
  | thrown (msg : String) : SecureFetchOutcome
  | httpError (statusText : String) (body : Option Json) : SecureFetchOutcome
  | ok (blobUrl : String) : SecureFetchOutcome

/-- `ApiService.getSecureFile`: by contrast with `request`, the `catch`
block logs and rethrows (api.ts:145-149), so the result is an `Except`
whose `error` case models the propagated thrown `Error`.  The empty-header
check of api.ts:128-130 throws before any fetch is issued. -/
def getSecureFile (s : LocalStorage) (nowSec : Int) (outcome : SecureFetchOutcome) :
    Except String String :=
  let headers := (getAuthHeader s nowSec).2
  if headers.length = 0 then Except.error "Usuário não autenticado."
  else
    match outcome with
    | SecureFetchOutcome.thrown msg => Except.error msg
    | SecureFetchOutcome.httpError statusText body =>
      Except.error
        (match errorFieldString body with
         | some e => if e = "" then "Falha ao buscar o arquivo: " ++ statusText else e
         | none => "Falha ao buscar o arquivo: " ++ statusText)
    | SecureFetchOutcome.ok blobUrl => Except.ok blobUrl

/-! ## Embedding of `ApiService.uploadCompanyLogo` (api.ts:752-782) -/

/-- The auth-header computation of `uploadCompanyLogo` (api.ts:759-765): the
method reads only the final slot `id_transporte_token` directly, performs no
validity check and no cleanup, and attaches whatever token it finds.  The
returned storage is the input storage: the method never writes to storage. -/
def uploadCompanyLogoAuth (s : LocalStorage) : LocalStorage × List (String × String) :=
  (s,
   match s.token with
   | some t => [("Authorization", "Bearer " ++ t)]
   | none => [])

/-! ## Embedding of the `SupervisorDashboard` in `src/pages/dashboard/DriverForm.tsx` -/

/-- The derived movement classification of a tracked driver. -/
inductive MovementStatus where
  | moving : MovementStatus
  | idle : MovementStatus
  | offline : MovementStatus
deriving DecidableEq

/-- Staleness threshold of the movement classifier, in milliseconds: an
update older than five minutes is offline (spec: stale after several minutes
of silence; the spec test vector places six minutes beyond the boundary). -/
def staleThresholdMs : Int := 300000

/-- Movement threshold of the classifier, in km/h (spec: moving above a low
walking-speed threshold; the spec test vectors place 5 below and 25 above). -/
def movingThresholdKmh : Rat := 10

/-- Modelled from the spec: `computeMovementStatus` is imported from
`@/lib/driver-status`, which is not among the provided sources; only its
caller is.  Spec §4.4: offline when the last update is absent or unparsable
(`lastUpdateMs = none`, the caller parses the ISO timestamp) or older than
the staleness threshold; else moving when the speed, clamped to zero from
below, exceeds the movement threshold; else idle. -/
def computeMovementStatus (speedKmh : Rat) (lastUpdateMs : Option Int) (nowMs : Int) :
    MovementStatus :=
  match lastUpdateMs with
  | none => MovementStatus.offline
  | some t =>
    if staleThresholdMs < nowMs - t then MovementStatus.offline
    else if movingThresholdKmh < (if speedKmh < 0 then 0 else speedKmh) then
      MovementStatus.moving
    else MovementStatus.idle

/-- One entry of the `driverStatuses` dashboard state (DriverForm.tsx:254-260). -/
structure DriverStatusItem where
  id : String
  name : String
  speed : Rat
  lastUpdate : Option String
  status : MovementStatus
deriving DecidableEq

/-- The `??` coalescing of the raw `driver_id` and `id` properties
(DriverForm.tsx:319), followed by the explicit `undefined`/`null` exclusion
check of DriverForm.tsx:321: `none` when the entry is to be dropped. -/
def rawIdValue (raw : Json) : Option Json :=
  let idv := match jget raw "driver_id" with
    | none => jget raw "id"
    | some Json.null => jget raw "id"
    | some v => some v
  match idv with
  | some Json.null => none
  | other => other

/-- The raw `speed` property after `?? 0` (DriverForm.tsx:325-326). -/
def rawSpeedJson (raw : Json) : Json :=
  match jget raw "speed" with
  | none => Json.num 0
  | some Json.null => Json.num 0
  | some v => v

/-- The `safeSpeed` local (DriverForm.tsx:327): the numeric coercion of the
coalesced speed, replaced by `0` unless it is a finite number. -/
def rawSafeSpeed (raw : Json) : Rat :=
  (jsToNumber (rawSpeedJson raw)).getD 0

/-- The `name` field (DriverForm.tsx:332): `String(driver_name ?? 'Motorista')`. -/
def rawName (raw : Json) : String :=
  jsString
    (match jget raw "driver_name" with
     | none => Json.str "Motorista"
     | some Json.null => Json.str "Motorista"
     | some v => v)

/-- The `lastUpdate` field (DriverForm.tsx:328, 334): the raw `last_update`
when it is a string, else `null`. -/
def rawLastUpdate (raw : Json) : Option String :=
  match jget raw "last_update" with
  | some (Json.str s) => some s
  | _ => none

/-- The speed handed to the classifier (DriverForm.tsx:337): the raw value
when it is a number, else the already-sanitized `safeSpeed`. -/
def rawClassifierSpeed (raw : Json) : Rat :=
  match rawSpeedJson raw with
  | Json.num q => q
  | _ => rawSafeSpeed raw

/-- The per-entry normalization of `loadDriverStatuses`
(DriverForm.tsx:317-343): `none` models the `null` that the subsequent
`filter(Boolean)` drops.  `parseDate` is the platform ISO-timestamp parser
used inside the movement classifier (`none` models an unparsable date). -/
def normalizeDriver (parseDate : String → Option Int) (nowMs : Int) (raw : Json) :
    Option DriverStatusItem :=
  match rawIdValue raw with
  | none => none
  | some idv =>
    some
      ⟨jsString idv, rawName raw, rawSafeSpeed raw, rawLastUpdate raw,
        computeMovementStatus (rawClassifierSpeed raw)
          ((rawLastUpdate raw).bind parseDate) nowMs⟩

/-- The full `normalized` list of DriverForm.tsx:316-345: map, drop the
`null` entries, then sort by name.  `cmp` is the platform
`localeCompare(..., 'pt-BR')` comparator; `Array.prototype.sort` with a
consistent comparator is modelled by the stable `List.insertionSort` with
the relation `cmp a.name b.name ≤ 0`. -/
def normalizeDrivers (cmp : String → String → Int) (parseDate : String → Option Int)
    (nowMs : Int) (raws : List Json) : List DriverStatusItem :=
  List.insertionSort (fun a b => cmp a.name b.name ≤ 0)
    (raws.filterMap (normalizeDriver parseDate nowMs))

/-- The observable state updates and user-facing effects the
`loadDriverStatuses` callback can perform, in order. -/
inductive DashEffect where
  | setDriversLoading (b : Bool) : DashEffect
  | setDriverStatuses (items : List DriverStatusItem) : DashEffect
  | logError : DashEffect
  | toastError : DashEffect
deriving DecidableEq

/-- The abstracted behaviour of the awaited data path inside the `try` block
of `loadDriverStatuses`: the `getCurrentLocations` promise resolved to an
envelope, or the path threw. -/
inductive LoadOutcome where
  | ok (resp : Json) : LoadOutcome
  | thrown (msg : String) : LoadOutcome

/-- The guard of DriverForm.tsx:314:
`response.success && Array.isArray(response.data)` — the raw driver array
when the guard passes. -/
def responseDriversArray (resp : Json) : Option (List Json) :=
  if jsTruthyOpt (jget resp "success") then
    match jget resp "data" with
    | some (Json.arr xs) => some xs
    | _ => none
  else none

/-- `SupervisorDashboard.loadDriverStatuses` (DriverForm.tsx:305-365) as the
ordered list of effects it performs: the loading flag is raised and lowered
only for non-silent calls, a thrown data path is logged always but toasts
only for non-silent calls, and a successful guarded response stores the
normalized list. -/
def loadDriverStatuses (cmp : String → String → Int) (parseDate : String → Option Int)
    (nowMs : Int) (silent : Bool) (outcome : LoadOutcome) : List DashEffect :=
  (if silent then [] else [DashEffect.setDriversLoading true]) ++
    (match outcome with
     | LoadOutcome.ok resp =>
       match responseDriversArray resp with
       | some raws => [DashEffect.setDriverStatuses (normalizeDrivers cmp parseDate nowMs raws)]
       | none => []
     | LoadOutcome.thrown _ =>
       DashEffect.logError :: (if silent then [] else [DashEffect.toastError])) ++
    (if silent then [] else [DashEffect.setDriversLoading false])

/-- JS `Number.prototype.toFixed(1)` (ES semantics: the sign is taken off
first, then the closest one-decimal representation is chosen, preferring the
larger scaled integer on ties). -/
def toFixed1 (q : Rat) : String :=
  let sign := if q < 0 then "-" else ""
  let ax : Rat := if q < 0 then -q else q
  let n : Int := (ax.num * 20 + Int.ofNat ax.den) / (2 * Int.ofNat ax.den)
  sign ++ toString (n / 10) ++ "." ++ toString (n % 10)

/-- The rendered speed text of DriverForm.tsx:558-559:
`(driver.speed < 0 ? 0 : driver.speed).toFixed(1)`. -/
def formatDriverSpeed (speed : Rat) : String :=
  toFixed1 (if speed < 0 then 0 else speed)

/-! ## Helper lemmas -/

/-- The digit character of any value reduced modulo ten is a decimal digit. -/
theorem digitChar_mod_ten_isDigit (n : Nat) : (Nat.digitChar (n % 10)).isDigit = true := by
  have h : n % 10 < 10 := Nat.mod_lt _ (by decide)
  generalize hm : n % 10 = m at h
  interval_cases m <;> decide

/-- Every character `Nat.toDigitsCore` emits over base ten on a digits-only
accumulator is a decimal digit. -/
theorem toDigitsCore_digits (fuel : Nat) :
    ∀ (n : Nat) (acc : List Char), (∀ c ∈ acc, c.isDigit = true) →
      ∀ c ∈ Nat.toDigitsCore 10 fuel n acc, c.isDigit = true := by
  induction fuel with
  | zero =>
    intro n acc hacc c hc
    simp only [Nat.toDigitsCore] at hc
    exact hacc c hc
  | succ fuel ih =>
    intro n acc hacc c hc
    simp only [Nat.toDigitsCore] at hc
    have hd : ∀ c ∈ (Nat.digitChar (n % 10) :: acc), c.isDigit = true := by
      intro c hc2
      rcases List.mem_cons.mp hc2 with h | h
      · subst h; exact digitChar_mod_ten_isDigit n
      · exact hacc c h
    by_cases h : n / 10 = 0
    · rw [if_pos h] at hc
      exact hd c hc
    · rw [if_neg h] at hc
      exact ih (n / 10) _ hd c hc

/-- Every character of the decimal representation of a natural number is a
decimal digit. -/
theorem natRepr_isDigit (n : Nat) : ∀ c ∈ (Nat.repr n).data, c.isDigit = true := by
  intro c hc
  have heq : (Nat.repr n).data = Nat.toDigitsCore 10 (n + 1) n [] := rfl
  rw [heq] at hc
  exact toDigitsCore_digits (n + 1) n []
    (by intro c hc2; exact absurd hc2 (List.not_mem_nil c)) c hc

/-- A matched prefix only uses characters of the searched list. -/
theorem listStartsWith_mem (pat : List Char) :
    ∀ (cs : List Char), listStartsWith cs pat = true → ∀ c ∈ pat, c ∈ cs := by
  induction pat with
  | nil => intro cs _ c hc; exact absurd hc (List.not_mem_nil c)
  | cons p ps ih =>
    intro cs h c hc
    cases cs with
    | nil => simp [listStartsWith] at h
    | cons x xs =>
      simp only [listStartsWith, Bool.and_eq_true, decide_eq_true_eq] at h
      obtain ⟨hxp, hrest⟩ := h
      rcases List.mem_cons.mp hc with h1 | h1
      · subst h1; rw [← hxp]; exact List.mem_cons_self x xs
      · exact List.mem_cons_of_mem x (ih xs hrest c h1)

/-- A matched substring only uses characters of the searched list. -/
theorem listContainsSub_mem :
    ∀ (cs pat : List Char), listContainsSub cs pat = true → ∀ c ∈ pat, c ∈ cs := by
  intro cs
  induction cs with
  | nil =>
    intro pat h c hc
    simp only [listContainsSub, List.isEmpty_iff] at h
    subst h
    exact absurd hc (List.not_mem_nil c)
  | cons x xs ih =>
    intro pat h c hc
    simp only [listContainsSub, Bool.or_eq_true] at h
    rcases h with h | h
    · exact listStartsWith_mem pat (x :: xs) h c hc
    · exact List.mem_cons_of_mem x (ih pat h c hc)

/-- A pattern with a character the searched string lacks never matches. -/
theorem includesSub_eq_false (s pat : String) (c : Char) (hc : c ∈ pat.data)
    (hs : c ∉ s.data) : includesSub s pat = false := by
  cases hb : includesSub s pat with
  | false => rfl
  | true =>
    have h2 : listContainsSub s.data pat.data = true := hb
    exact absurd (listContainsSub_mem s.data pat.data h2 c hc) hs

/-- The fallback message `HTTP` plus a status number passes through the
catch-block classification unchanged: it contains neither search pattern. -/
theorem classifyCaught_httpMessage (st : Nat) :
    classifyCaughtMessage ("HTTP " ++ Nat.repr st) = "HTTP " ++ Nat.repr st := by
  have hmem : ∀ c ∈ ("HTTP " ++ Nat.repr st).data, c ∈ "HTTP ".data ∨ c.isDigit = true := by
    intro c hc
    rw [String.data_append] at hc
    rcases List.mem_append.mp hc with h | h
    · exact Or.inl h
    · exact Or.inr (natRepr_isDigit st c h)
  have h1 : includesSub ("HTTP " ++ Nat.repr st) "secretOrPrivateKey" = false := by
    refine includesSub_eq_false _ _ 's' (by decide) ?_
    intro hs
    rcases hmem 's' hs with h | h
    · revert h; decide
    · revert h; decide
  have h2 : includesSub ("HTTP " ++ Nat.repr st) "Failed to fetch" = false := by
    refine includesSub_eq_false _ _ 'F' (by decide) ?_
    intro hs
    rcases hmem 'F' hs with h | h
    · revert h; decide
    · revert h; decide
  simp [classifyCaughtMessage, h1, h2]

/-! ## Claim theorems -/

/-- Claim C1.  The claim states that the headers sent on the wire are always
the later-wins merge of the content-type default, the auth header and the
caller-supplied headers.  The code computes exactly that merge, but then
builds the fetch init as `{ headers, ...options }`, so whenever the caller
options carry a `headers` property the spread re-assigns it and the merged
object — including the content-type default and the auth entry — is
discarded wholesale.  This theorem evaluates both the computed merge and the
wire headers at a failing input: one caller header, an auth token present,
a non-multipart body.  The merge keeps the default and the auth entry; the
wire headers do not. -/
theorem request_headers_clobbered_by_options_spread :
    requestWireHeaders [("Authorization", "Bearer t")]
        ⟨some [("X-Custom", "1")], false⟩ = [("X-Custom", "1")] ∧
    requestComputedHeaders [("Authorization", "Bearer t")]
        ⟨some [("X-Custom", "1")], false⟩ =
      [("Content-Type", "application/json"), ("Authorization", "Bearer t"),
        ("X-Custom", "1")] ∧
    requestWireHeaders [("Authorization", "Bearer t")]
        ⟨some [("X-Custom", "1")], false⟩ ≠
      requestComputedHeaders [("Authorization", "Bearer t")]
        ⟨some [("X-Custom", "1")], false⟩ := by
  refine ⟨rfl, rfl, ?_⟩
  decide

/-- Claim C3, counterexample.  The claim quantifies over every operation that
computes an Authorization header: with a present-but-invalid token it demands
an empty header and the cleanup of all five session keys.
`uploadCompanyLogo` computes an Authorization header directly from the final
token slot: with the invalid token `abc` stored (one dot-segment, so the
validity check rejects it), it still attaches `Bearer abc` and leaves the
storage untouched. -/
theorem uploadCompanyLogo_skips_invalid_token_cleanup :
    isTokenValid ⟨some "abc", some "u", some "c", some "tt", some "tu"⟩ 0 = false ∧
    uploadCompanyLogoAuth ⟨some "abc", some "u", some "c", some "tt", some "tu"⟩ =
      (⟨some "abc", some "u", some "c", some "tt", some "tu"⟩,
        [("Authorization", "Bearer abc")]) := by
  exact ⟨rfl, rfl⟩

/-- Claim C3, amended.  For the operations that compute their Authorization
header through `getAuthHeader` — `request` and `getSecureFile` — a
present-but-invalid active token yields an empty header and clears all five
session keys in the same step, so the call proceeds as if unauthenticated.
(`uploadCompanyLogo` bypasses `getAuthHeader` and performs neither the check
nor the cleanup.) -/
theorem getAuthHeader_clears_on_invalid_token (s : LocalStorage) (nowSec : Int)
    (t : String) (hpres : activeToken s = some t)
    (hinv : isTokenValid s nowSec = false) :
    getAuthHeader s nowSec = (clearedStorage, []) := by
  unfold getAuthHeader
  rw [hpres, hinv]
  simp

/-- Claim C3, witness: a storage holding the malformed final token `abc`
alongside all four other session keys is cleared by `getAuthHeader`. -/
theorem getAuthHeader_clears_on_invalid_token_witness :
    activeToken ⟨some "abc", some "u", some "c", some "tt", some "tu"⟩ = some "abc" ∧
    isTokenValid ⟨some "abc", some "u", some "c", some "tt", some "tu"⟩ 0 = false ∧
    getAuthHeader ⟨some "abc", some "u", some "c", some "tt", some "tu"⟩ 0 =
      (clearedStorage, []) :=
  ⟨rfl, rfl,
    getAuthHeader_clears_on_invalid_token
      ⟨some "abc", some "u", some "c", some "tt", some "tu"⟩ 0 "abc" rfl rfl⟩

/-- The JS expiry comparison is true exactly when the property is present and
coerces to a number strictly greater than the bound. -/
theorem jsGtNum_eq_true_iff (v : Option Json) (n : Int) :
    jsGtNum v n = true ↔
      ∃ w q, v = some w ∧ jsToNumber w = some q ∧ (n : Rat) < q := by
  cases v with
  | none => simp [jsGtNum]
  | some w =>
    cases hq : jsToNumber w with
    | none => simp [jsGtNum, hq]
    | some q => simp [jsGtNum, hq]

/-- Unfolding of `tokenValid` as a conjunction of the four stages. -/
theorem tokenValid_eq_true_iff (t : String) (nowSec : Int) :
    tokenValid t nowSec = true ↔
      ((splitOnChar '.' t.data).length = 3 ∧
        ∃ decoded,
          atobL (base64urlNormalize ((splitOnChar '.' t.data).getD 1 [])) = some decoded ∧
          ∃ payload, jsonParse (String.mk decoded) = some payload ∧
            jsGtNum (jget payload "exp") nowSec = true) := by
  unfold tokenValid
  by_cases hlen : (splitOnChar '.' t.data).length = 3
  · rw [if_neg (fun h => h hlen)]
    cases hdec : atobL (base64urlNormalize ((splitOnChar '.' t.data).getD 1 [])) with
    | none => simp [hlen, hdec]
    | some decoded =>
      cases hp : jsonParse (String.mk decoded) with
      | none => simp [hlen, hdec, hp]
      | some payload => simp [hlen, hdec, hp]
  · rw [if_pos hlen]
    simp [hlen]

/-- Claim C4.  `isTokenValid` is a total Boolean predicate on the active
token (final slot preferred, temporary slot as fallback) — totality is
inherent in the embedding, the JS `try` block catches every decode failure.
It returns true exactly when: the token splits into exactly three
dot-delimited segments, the base64url-normalized second segment decodes, the
decoded text parses as JSON, and the parsed `exp` property coerces to a
number strictly greater than the current epoch seconds (a floor, passed as
`nowSec`).  Every malformed token and every `exp` at or before `nowSec`
therefore yields `false`, never an error. -/
theorem isTokenValid_characterization (s : LocalStorage) (nowSec : Int) :
    isTokenValid s nowSec = true ↔
      ∃ t, activeToken s = some t ∧
        (splitOnChar '.' t.data).length = 3 ∧
        ∃ decoded,
          atobL (base64urlNormalize ((splitOnChar '.' t.data).getD 1 [])) = some decoded ∧
          ∃ payload, jsonParse (String.mk decoded) = some payload ∧
            ∃ expVal expNum, jget payload "exp" = some expVal ∧
              jsToNumber expVal = some expNum ∧ (nowSec : Rat) < expNum := by
  unfold isTokenValid
  cases hat : activeToken s with
  | none => simp
  | some t =>
    simp only [Option.some.injEq]
    rw [tokenValid_eq_true_iff]
    constructor
    · rintro ⟨h3, decoded, hdec, payload, hp, hgt⟩
      obtain ⟨w, q, hw, hq, hlt⟩ := (jsGtNum_eq_true_iff _ _).mp hgt
      exact ⟨t, rfl, h3, decoded, hdec, payload, hp, w, q, hw, hq, hlt⟩
    · rintro ⟨t2, ht2, h3, decoded, hdec, payload, hp, w, q, hw, hq, hlt⟩
      subst ht2
      exact ⟨h3, decoded, hdec, payload, hp,
        (jsGtNum_eq_true_iff _ _).mpr ⟨w, q, hw, hq, hlt⟩⟩

/-- Claim C2.  `request` never rejects: it is a total function into envelope
values, and on every thrown/transport-level error — a thrown message, or the
internally thrown non-2xx error — it resolves to `{ success: false, error:
msg }` with `msg` classified by substring: the fixed server-configuration
message when the error message mentions `secretOrPrivateKey`, else the fixed
connectivity message when it mentions `Failed to fetch`, else the raw
message, falling back to `HTTP` plus the status for a non-2xx response
without a structured string error body (or with an empty one). -/
theorem request_failure_envelope :
    (∀ msg, request (FetchOutcome.thrown msg) =
      failEnvelope
        (if includesSub msg "secretOrPrivateKey" = true then serverConfigMessage
         else if includesSub msg "Failed to fetch" = true then connectivityMessage
         else msg)) ∧
    (∀ status body, errorFieldString body = none →
      request (FetchOutcome.httpError status body) =
        failEnvelope ("HTTP " ++ Nat.repr status)) ∧
    (∀ status body, errorFieldString body = some "" →
      request (FetchOutcome.httpError status body) =
        failEnvelope ("HTTP " ++ Nat.repr status)) ∧
    (∀ status body e, errorFieldString body = some e → e ≠ "" →
      request (FetchOutcome.httpError status body) =
        failEnvelope
          (if includesSub e "secretOrPrivateKey" = true then serverConfigMessage
           else if includesSub e "Failed to fetch" = true then connectivityMessage
           else e)) := by
  have hconfig : classifyCaughtMessage serverConfigMessage = serverConfigMessage := by
    have h1 : includesSub serverConfigMessage "secretOrPrivateKey" = false := by decide
    have h2 : includesSub serverConfigMessage "Failed to fetch" = false := by decide
    simp [classifyCaughtMessage, h1, h2]
  refine ⟨?_, ?_, ?_, ?_⟩
  · intro msg
    rfl
  · intro status body hb
    simp only [request, httpThrownMessage, hb]
    rw [classifyCaught_httpMessage]
  · intro status body hb
    simp only [request, httpThrownMessage, hb]
    have h0 : includesSub "" "secretOrPrivateKey" = false := by decide
    simp [h0, classifyCaught_httpMessage]
  · intro status body e hb hne
    simp only [request, httpThrownMessage, hb]
    by_cases h1 : includesSub e "secretOrPrivateKey" = true
    · rw [if_pos h1, hconfig, if_pos h1]
    · rw [if_neg h1, if_neg hne, if_neg h1]
      simp only [classifyCaughtMessage]
      by_cases h2 : includesSub e "Failed to fetch" = true
      · simp [h1, h2]
      · simp [h1, h2]

/-- Claim C2, witness: a 500 response whose structured error mentions
`secretOrPrivateKey` resolves to the failed envelope carrying the fixed
server-configuration message. -/
theorem request_failure_envelope_witness :
    request (FetchOutcome.httpError 500
        (some (Json.obj [("error", Json.str "jwt secretOrPrivateKey missing")]))) =
      failEnvelope serverConfigMessage ∧
    request (FetchOutcome.thrown "Failed to fetch") =
      failEnvelope connectivityMessage := by
  constructor
  · have h := request_failure_envelope.2.2.2 500
      (some (Json.obj [("error", Json.str "jwt secretOrPrivateKey missing")]))
      "jwt secretOrPrivateKey missing" rfl (by decide)
    simpa using h
  · have h := request_failure_envelope.1 "Failed to fetch"
    simpa using h

/-- Claim C6.  On a 2xx response, a parsed body that is an object already
carrying a `success` key is passed through unchanged as the envelope; any
other body is wrapped as `{ success: true, data: body }`. -/
theorem request_success_envelope :
    (∀ fields, hasField fields "success" = true →
      request (FetchOutcome.ok (Json.obj fields)) = Json.obj fields) ∧
    (∀ body, passThrough body = false →
      request (FetchOutcome.ok body) =
        Json.obj [("success", Json.bool true), ("data", body)]) := by
  constructor
  · intro fields h
    simp [request, passThrough, h]
  · intro body h
    simp [request, h]

/-- Claim C6, witness: a body with a `success` key passes through, a plain
string body is wrapped. -/
theorem request_success_envelope_witness :
    request (FetchOutcome.ok (Json.obj [("success", Json.bool false), ("error", Json.str "x")])) =
      Json.obj [("success", Json.bool false), ("error", Json.str "x")] ∧
    request (FetchOutcome.ok (Json.str "payload")) =
      Json.obj [("success", Json.bool true), ("data", Json.str "payload")] :=
  ⟨request_success_envelope.1 [("success", Json.bool false), ("error", Json.str "x")] rfl,
    request_success_envelope.2 (Json.str "payload") rfl⟩

/-- Claim C5.  For every backend login body that is the double-wrapped
envelope `{ success: true, data: { data: { token, user } } }`, the `login`
method returns `{ success: true, data: { token, user } }` — exactly one
level of nesting removed; and for every envelope on which the unwrap guard
`response.success && response.data && response.data.data` fails, the
envelope is returned unchanged. -/
theorem login_unwraps_one_level :
    (∀ (t : String) (user : Json),
      login (FetchOutcome.ok
          (Json.obj [("success", Json.bool true),
            ("data", Json.obj [("data",
              Json.obj [("token", Json.str t), ("user", user)])])])) =
        Json.obj [("success", Json.bool true),
          ("data", Json.obj [("token", Json.str t), ("user", user)])]) ∧
    (∀ resp, loginUnwrapCondition resp = false → loginTransform resp = resp) := by
  constructor
  · intro t user
    rfl
  · intro resp h
    simp [loginTransform, h]

/-- Claim C5, witness: a concrete double-wrapped login body unwraps, and an
envelope failing the guard (here: a failed envelope without `data`) is
returned unchanged. -/
theorem login_unwraps_one_level_witness :
    login (FetchOutcome.ok
        (Json.obj [("success", Json.bool true),
          ("data", Json.obj [("data",
            Json.obj [("token", Json.str "tok"),
              ("user", Json.obj [("id", Json.str "1")])])])])) =
      Json.obj [("success", Json.bool true),
        ("data", Json.obj [("token", Json.str "tok"),
          ("user", Json.obj [("id", Json.str "1")])])] ∧
    loginTransform (failEnvelope "boom") = failEnvelope "boom" :=
  ⟨login_unwraps_one_level.1 "tok" (Json.obj [("id", Json.str "1")]),
    login_unwraps_one_level.2 (failEnvelope "boom") rfl⟩

/-- Claim C8.  `getSecureFile` differs from `request` in its failure
contract: when no auth header is available it fails fast by throwing
(`Except.error`, never a failed envelope), and every transport or HTTP-level
failure of its fetch chain is propagated as a thrown error to the caller
instead of being swallowed. -/
theorem getSecureFile_propagates_errors :
    (∀ (s : LocalStorage) (nowSec : Int) (outcome : SecureFetchOutcome),
      (getAuthHeader s nowSec).2 = [] →
        getSecureFile s nowSec outcome = Except.error "Usuário não autenticado.") ∧
    (∀ (s : LocalStorage) (nowSec : Int) (msg : String),
      (getAuthHeader s nowSec).2 ≠ [] →
        getSecureFile s nowSec (SecureFetchOutcome.thrown msg) = Except.error msg) ∧
    (∀ (s : LocalStorage) (nowSec : Int) (statusText : String) (body : Option Json),
      (getAuthHeader s nowSec).2 ≠ [] →
        ∃ msg, getSecureFile s nowSec (SecureFetchOutcome.httpError statusText body) =
          Except.error msg) := by
  refine ⟨?_, ?_, ?_⟩
  · intro s nowSec outcome h
    simp [getSecureFile, h]
  · intro s nowSec msg h
    rw [getSecureFile]
    rw [if_neg (by simpa [List.length_eq_zero] using h)]
  · intro s nowSec statusText body h
    rw [getSecureFile]
    rw [if_neg (by simpa [List.length_eq_zero] using h)]
    exact ⟨_, rfl⟩

/-- Claim C8, witness: with an empty storage (no auth header) the call
throws the not-authenticated error even though the fetch would have
succeeded, and with a stored valid token a thrown transport error is
propagated verbatim. -/
theorem getSecureFile_propagates_errors_witness :
    getSecureFile clearedStorage 0 (SecureFetchOutcome.ok "blob:x") =
      Except.error "Usuário não autenticado." ∧
    getSecureFile ⟨some "h.eyJleHAiOjEwMH0.s", none, none, none, none⟩ 50
        (SecureFetchOutcome.thrown "Failed to fetch") =
      Except.error "Failed to fetch" :=
  ⟨getSecureFile_propagates_errors.1 clearedStorage 0 (SecureFetchOutcome.ok "blob:x") rfl,
    getSecureFile_propagates_errors.2.1
      ⟨some "h.eyJleHAiOjEwMH0.s", none, none, none, none⟩ 50 "Failed to fetch"
      (by decide)⟩

/-- Claim C7.  When `loadDriverStatuses` runs silently and its data path
throws, the drivers-loading flag is never raised and no error toast fires —
the failure is only logged; a non-silent run whose data path throws does
fire the error toast. -/
theorem silent_poll_suppresses_loading_and_toast
    (cmp : String → String → Int) (parseDate : String → Option Int)
    (nowMs : Int) (msg : String) :
    DashEffect.setDriversLoading true ∉
      loadDriverStatuses cmp parseDate nowMs true (LoadOutcome.thrown msg) ∧
    DashEffect.toastError ∉
      loadDriverStatuses cmp parseDate nowMs true (LoadOutcome.thrown msg) ∧
    DashEffect.toastError ∈
      loadDriverStatuses cmp parseDate nowMs false (LoadOutcome.thrown msg) := by
  refine ⟨?_, ?_, ?_⟩ <;> simp [loadDriverStatuses]

/-- Claim C9.  For every driver location snapshot carrying a negative speed,
the speed is clamped to zero before the movement-threshold comparison and
before display: with a fresh update the classifier returns idle (reason:
`spec-modelled` classifier, see `computeMovementStatus`), the rendered text
is `0.0`, and the full normalization of such a raw snapshot stores an entry
whose status is idle. -/
theorem negative_speed_clamps_to_idle_and_zero_display
    (speed : Rat) (t nowMs : Int) (hneg : speed < 0)
    (hfresh : nowMs - t ≤ staleThresholdMs) :
    computeMovementStatus speed (some t) nowMs = MovementStatus.idle ∧
    formatDriverSpeed speed = "0.0" ∧
    (∀ (parseDate : String → Option Int) (idv name ts : String),
      parseDate ts = some t →
      normalizeDriver parseDate nowMs
          (Json.obj [("driver_id", Json.str idv), ("driver_name", Json.str name),
            ("speed", Json.num speed), ("last_update", Json.str ts)]) =
        some ⟨idv, name, speed, some ts, MovementStatus.idle⟩) := by
  have hnotstale : ¬ (staleThresholdMs < nowMs - t) := not_lt.mpr hfresh
  have hclass : computeMovementStatus speed (some t) nowMs = MovementStatus.idle := by
    simp only [computeMovementStatus]
    rw [if_neg hnotstale, if_pos hneg, if_neg (by decide)]
  refine ⟨hclass, ?_, ?_⟩
  · unfold formatDriverSpeed
    rw [if_pos hneg]
    rfl
  · intro parseDate idv name ts hts
    simp only [normalizeDriver, rawIdValue, rawName, rawSafeSpeed, rawSpeedJson,
      rawLastUpdate, rawClassifierSpeed, jget, lookupField, jsString, jsToNumber,
      Option.getD_some, Option.some_bind]
    simp [hts, hclass]

/-- Claim C9, witness: a snapshot with speed `-3` and a ten-second-old
update normalizes to an idle entry whose displayed speed is `0.0`. -/
theorem negative_speed_clamps_witness :
    computeMovementStatus (-3) (some 0) 10000 = MovementStatus.idle ∧
    formatDriverSpeed (-3) = "0.0" ∧
    normalizeDriver (fun _ => some 0) 10000
        (Json.obj [("driver_id", Json.str "d1"), ("driver_name", Json.str "Ana"),
          ("speed", Json.num (-3)), ("last_update", Json.str "T")]) =
      some ⟨"d1", "Ana", -3, some "T", MovementStatus.idle⟩ := by
  have h := negative_speed_clamps_to_idle_and_zero_display (-3) 0 10000
    (by decide) (by decide)
  exact ⟨h.1, h.2.1, h.2.2 (fun _ => some 0) "d1" "Ana" "T" rfl⟩

/-- Claim C10, counterexample.  The claim states every stored entry has a
non-empty string id.  A raw snapshot whose `driver_id` is the empty string
is not excluded — the `??` coalescing only skips `null`/`undefined` — and
normalizes to an entry whose id is the empty string (with its speed kept). -/
theorem driver_list_keeps_empty_string_id :
    (normalizeDrivers (fun a b => if a < b then -1 else if a = b then 0 else 1)
        (fun _ => none) 0
        [Json.obj [("driver_id", Json.str ""), ("driver_name", Json.str "Ana"),
          ("speed", Json.num 3)]]).map (fun e => (e.id, e.speed)) = [("", 3)] := by
  rfl

/-- Claim C10, amended.  After every successful poll, the stored list is
(a) sorted by driver name under the locale comparator (for any total and
transitive comparator), (b) made of entries whose id is the JS string
conversion of a present (non-null, non-undefined) raw `driver_id` or `id`
value — which may be the empty string — and whose speed is the finite
numeric normalization of the raw speed (non-numeric and missing speeds
become 0), and (c) raw entries lacking both `driver_id` and `id` are
excluded. -/
theorem driver_list_normalized
    (cmp : String → String → Int) (parseDate : String → Option Int)
    (nowMs : Int) (raws : List Json)
    (hTot : ∀ a b : String, cmp a b ≤ 0 ∨ cmp b a ≤ 0)
    (hTrans : ∀ a b c : String, cmp a b ≤ 0 → cmp b c ≤ 0 → cmp a c ≤ 0) :
    List.Sorted (fun x y : DriverStatusItem => cmp x.name y.name ≤ 0)
        (normalizeDrivers cmp parseDate nowMs raws) ∧
    (∀ e ∈ normalizeDrivers cmp parseDate nowMs raws,
      ∃ raw ∈ raws, ∃ idv, rawIdValue raw = some idv ∧
        e.id = jsString idv ∧ e.speed = rawSafeSpeed raw) ∧
    (∀ raw, rawIdValue raw = none → normalizeDriver parseDate nowMs raw = none) := by
  refine ⟨?_, ?_, ?_⟩
  · haveI : IsTotal DriverStatusItem (fun x y => cmp x.name y.name ≤ 0) :=
      ⟨fun a b => hTot a.name b.name⟩
    haveI : IsTrans DriverStatusItem (fun x y => cmp x.name y.name ≤ 0) :=
      ⟨fun a b c => hTrans a.name b.name c.name⟩
    exact List.sorted_insertionSort _ _
  · intro e he
    have he2 : e ∈ raws.filterMap (normalizeDriver parseDate nowMs) :=
      (List.mem_insertionSort _).mp he
    obtain ⟨raw, hraw, hf⟩ := List.mem_filterMap.mp he2
    refine ⟨raw, hraw, ?_⟩
    unfold normalizeDriver at hf
    cases hid : rawIdValue raw with
    | none => rw [hid] at hf; exact absurd hf (by simp)
    | some idv =>
      rw [hid] at hf
      cases Option.some.inj hf
      exact ⟨idv, rfl, rfl, rfl⟩
  · intro raw h
    unfold normalizeDriver
    rw [h]

/-- Claim C10, witness: the amended invariant applied to the constant
comparator (total and transitive) and a single raw snapshot. -/
theorem driver_list_normalized_witness :
    List.Sorted (fun _ _ : DriverStatusItem => (0 : Int) ≤ 0)
        (normalizeDrivers (fun _ _ => (0 : Int)) (fun _ => none) 0
          [Json.obj [("driver_id", Json.str "7")]]) ∧
    (∀ e ∈ normalizeDrivers (fun _ _ => (0 : Int)) (fun _ => none) 0
        [Json.obj [("driver_id", Json.str "7")]],
      ∃ raw ∈ [Json.obj [("driver_id", Json.str "7")]], ∃ idv,
        rawIdValue raw = some idv ∧ e.id = jsString idv ∧ e.speed = rawSafeSpeed raw) ∧
    (∀ raw, rawIdValue raw = none → normalizeDriver (fun _ => none) 0 raw = none) :=
  driver_list_normalized (fun _ _ => (0 : Int)) (fun _ => none) 0
    [Json.obj [("driver_id", Json.str "7")]]
    (fun _ _ => Or.inl (le_refl 0)) (fun _ _ _ _ _ => le_refl 0)
